import Mathlib

/-!
Verification development for the function-space-gradient-flow repository.

The repository couples a Projected Wasserstein Gradient Flow (PWGF)
approximation of Gaussian-process regression with experiment glue code.
The experiment glue (model loaders, the UCI and curves experiment mains,
and the TemperGP regression test) is embedded here directly from the
Python sources; the core library modules (src.gradient_flows, src.temper,
src.kernels, src.induce_data_selectors) are not part of the available
sources, so those components are modelled from the specification, each
such definition being marked in its doc comment.

Numeric scalars of the Python code (torch doubles) are modelled as exact
rationals, except for the particle-projection step whose Euclidean norm
needs real square roots.
-/

namespace FSGF

/-! ## Tensors and dtypes (torch model for the loaders)

`torch.Tensor.to(dtype)` is a pure operation returning a fresh tensor;
it never mutates its receiver.  Only the dtype and shape bookkeeping is
relevant to the claims, so values are kept abstract as a flat list. -/

inductive Dtype where
  | float
  | double
deriving DecidableEq, Repr

structure Tensor where
  dtype : Dtype
  shape : List ℕ
  values : List ℚ
deriving DecidableEq, Repr

def Tensor.to (t : Tensor) (d : Dtype) : Tensor :=
  { t with dtype := d }

/-! ## Embedding of src/experiments/loaders.py -/

/-- Embeds `Data` as used by `load_ard_exact_gp_model` (fields `x`, `y`). -/
structure Data' where
  x : Tensor
  y : Tensor
deriving DecidableEq, Repr

/-- Embeds the state of an `ExactGP` relevant to the loader: the training
tensors it is constructed with (`ExactGP(x=data.x, y=data.y, ...)`). -/
structure ExactGP where
  x : Tensor
  y : Tensor
deriving DecidableEq, Repr

/-- Embeds `load_ard_exact_gp_model` (src/experiments/loaders.py lines
61-80).  Lines 66-67 evaluate `data.x.to(torch.double)` and
`data.y.to(torch.double)` and discard the results, so the model is built
from the unconverted tensors. -/
def load_ard_exact_gp_model (data : Data') : ExactGP :=
  let _discarded_x := data.x.to Dtype.double
  let _discarded_y := data.y.to Dtype.double
  { x := data.x, y := data.y }

/-- Embeds the state of `svGP` relevant to the loader: its inducing-point
tensor. -/
structure SvGP where
  x_induce : Tensor
deriving DecidableEq, Repr

/-- Embeds `torch.nn.Module.double()`: converts the model parameters
(here the inducing points) to double. -/
def SvGP.double (m : SvGP) : SvGP :=
  { x_induce := m.x_induce.to Dtype.double }

/-- Embeds `load_svgp` (src/experiments/loaders.py lines 40-58): the
model is constructed with `x_induce.to(torch.double)` and then
`model.double()` is applied. -/
def load_svgp (x_induce : Tensor) : SvGP :=
  let model : SvGP := { x_induce := x_induce.to Dtype.double }
  model.double

/-- Embeds the state of `ProjectedWassersteinGradientFlow` relevant to
checkpointing: the particle tensor and the scalar observation noise. -/
structure ProjectedWassersteinGradientFlow where
  number_of_particles : ℕ
  observation_noise : ℚ
  particles : Tensor
deriving DecidableEq, Repr

/-- Embeds the persisted checkpoint bundle written by
src/experiments/uci/main.py lines 207-213 and 357-363:
`{"particles": pwgf.particles, "observation_noise": pwgf.observation_noise}`. -/
structure PWGFBundle where
  particles : Tensor
  observation_noise : ℚ
deriving DecidableEq, Repr

/-- Embeds `load_projected_wasserstein_gradient_flow`
(src/experiments/loaders.py lines 12-37): the particles are read from the
bundle and converted to double, while `observation_noise` is the separate
caller-supplied argument; the bundle's `observation_noise` entry is never
read. -/
def load_projected_wasserstein_gradient_flow
    (model_config : PWGFBundle) (observation_noise : ℚ) :
    ProjectedWassersteinGradientFlow :=
  let particles := model_config.particles.to Dtype.double
  { number_of_particles := particles.shape.getD 1 0
    observation_noise := observation_noise
    particles := particles }

/-- Embeds the save in src/experiments/uci/main.py lines 207-213. -/
def savePwgfBundle (pwgf : ProjectedWassersteinGradientFlow) : PWGFBundle :=
  { particles := pwgf.particles, observation_noise := pwgf.observation_noise }

/-- Embeds the reload path of src/experiments/uci/main.py lines 169-177:
on an existing checkpoint, `load_projected_wasserstein_gradient_flow` is
called with `observation_noise=float(likelihood.noise)`, the averaged
subsample-GP likelihood noise. -/
def uciReloadPwgf (bundle : PWGFBundle) (likelihood_noise : ℚ) :
    ProjectedWassersteinGradientFlow :=
  load_projected_wasserstein_gradient_flow bundle likelihood_noise

/-- Concrete trained PWGF state for the failing input of claim C1: its
observation noise 1/2 stands for the value found by
`pwgf_observation_noise_search` (uci/main.py lines 199-206), which in
general differs from the averaged likelihood noise (here 1). -/
def pwgfTrainedDemo : ProjectedWassersteinGradientFlow :=
  { number_of_particles := 1
    observation_noise := 1 / 2
    particles := { dtype := Dtype.double, shape := [1, 1], values := [0] } }

/-- Claim C1 (failing-input evaluation): reloading the persisted UCI
checkpoint reproduces the saved particle tensor, but the reconstructed
observation noise is the caller-supplied likelihood noise (1), not the
persisted observation-noise value (1/2): the persisted field is saved yet
never read back. -/
theorem uciReloadPwgf_drops_saved_observation_noise :
    (uciReloadPwgf (savePwgfBundle pwgfTrainedDemo) 1).particles
        = (savePwgfBundle pwgfTrainedDemo).particles ∧
    (uciReloadPwgf (savePwgfBundle pwgfTrainedDemo) 1).observation_noise = 1 ∧
    (savePwgfBundle pwgfTrainedDemo).observation_noise = 1 / 2 ∧
    (uciReloadPwgf (savePwgfBundle pwgfTrainedDemo) 1).observation_noise
        ≠ (savePwgfBundle pwgfTrainedDemo).observation_noise := by
  refine ⟨rfl, rfl, rfl, ?_⟩
  norm_num [uciReloadPwgf, savePwgfBundle, pwgfTrainedDemo,
    load_projected_wasserstein_gradient_flow]

/-- Claim C9: `load_ard_exact_gp_model` returns the ExactGP built from
the loaded tensors in their original dtype (the `.to(torch.double)`
results are discarded), whereas `load_svgp` and
`load_projected_wasserstein_gradient_flow` do convert their inducing
points respectively particles to double. -/
theorem load_ard_exact_gp_model_keeps_dtype (data : Data') (t : Tensor)
    (bundle : PWGFBundle) (noise : ℚ) :
    (load_ard_exact_gp_model data).x = data.x ∧
    (load_ard_exact_gp_model data).y = data.y ∧
    (load_ard_exact_gp_model data).x.dtype = data.x.dtype ∧
    (load_svgp t).x_induce.dtype = Dtype.double ∧
    (load_projected_wasserstein_gradient_flow bundle noise).particles.dtype
        = Dtype.double := by
  exact ⟨rfl, rfl, rfl, rfl, rfl⟩

/-! ## Embedding of the observation-noise wiring (claim C10) -/

/-- Embeds src/experiments/curves/main.py lines 146-148: the observation
noise handed to the first (exact-GP-kernel) PWGF run,
`model.likelihood.noise if gp_scheme == "exact" else 1.0`. -/
def curvesPwgfObservationNoise (gp_scheme : String)
    (model_likelihood_noise : ℚ) : ℚ :=
  if gp_scheme = "exact" then model_likelihood_noise else 1

/-- Embeds src/experiments/curves/main.py lines 230-232: the observation
noise handed to the second (svGP-kernel) PWGF run.  The expression again
reads the first model's likelihood noise; the trained svGP model's
likelihood noise is not mentioned. -/
def curvesSvgpPwgfObservationNoise (gp_scheme : String)
    (model_likelihood_noise : ℚ) (_svgp_model_likelihood_noise : ℚ) : ℚ :=
  if gp_scheme = "exact" then model_likelihood_noise else 1

/-- Embeds src/experiments/uci/main.py line 350: the UCI experiment
passes `svgp_model.likelihood.noise` to its svGP-seeded PWGF run. -/
def uciSvgpPwgfObservationNoise (svgp_model_likelihood_noise : ℚ) : ℚ :=
  svgp_model_likelihood_noise

/-- Claim C10: in the curves experiment both PWGF runs receive the
identical observation-noise value (the first model's likelihood noise
under the "exact" scheme, else 1.0), independent of the trained svGP's
own likelihood noise, whereas the UCI experiment passes the svGP model's
likelihood noise to its svGP-seeded run. -/
theorem curves_svgp_pwgf_observation_noise_ignores_svgp_noise
    (gp_scheme : String) (model_noise svgp_noise svgp_noise' : ℚ) :
    curvesSvgpPwgfObservationNoise gp_scheme model_noise svgp_noise
        = curvesPwgfObservationNoise gp_scheme model_noise ∧
    curvesSvgpPwgfObservationNoise gp_scheme model_noise svgp_noise
        = curvesSvgpPwgfObservationNoise gp_scheme model_noise svgp_noise' ∧
    uciSvgpPwgfObservationNoise svgp_noise = svgp_noise := by
  exact ⟨rfl, rfl, rfl⟩

/-! ## TemperGP calibration (claims C3) -/

/-- Modelled from the spec: `src.temper.TemperGP` wraps a fitted GP; the
module src/temper.py is not among the available sources.  A fitted base
GP is its predictive mean and predictive covariance functions over query
inputs, per spec section 4.4. -/
structure GPModel (α : Type) where
  mean : α → ℚ
  cov : α → α → ℚ

/-- Modelled from the spec: the temperature τ of TemperGP, "a scalar
temperature τ that scales the predictive covariance so that the
calibration set's observed residuals match the predicted uncertainty"
(spec section 4.5), rendered as the mean squared standardized residual
on the calibration set — deterministic in the base GP and the
calibration data, with no hidden randomness. -/
def temperTemperature {α : Type} (gp : GPModel α) (cal : List (α × ℚ)) : ℚ :=
  ((cal.map fun p => (p.2 - gp.mean p.1) ^ 2 / gp.cov p.1 p.1).sum) / cal.length

/-- Modelled from the spec: the TemperGP wrapper state — the base GP plus
the temperature computed once at construction time (spec section 4.5). -/
structure TemperGPModel (α : Type) where
  gp : GPModel α
  temperature : ℚ

/-- Modelled from the spec: TemperGP construction computes τ once from
the calibration set `(x_calibration, y_calibration)` and stores it. -/
def TemperGP {α : Type} (gp : GPModel α)
    (x_calibration : List α) (y_calibration : List ℚ) : TemperGPModel α :=
  { gp := gp
    temperature := temperTemperature gp (x_calibration.zip y_calibration) }

/-- Modelled from the spec: applying the wrapper to new inputs returns
the base GP's predictive mean unchanged (spec section 4.5). -/
def TemperGPModel.predictMean {α : Type} (t : TemperGPModel α) (x : α) : ℚ :=
  t.gp.mean x

/-- Modelled from the spec: applying the wrapper to new inputs returns
the base GP's predictive covariance multiplied by τ (spec section 4.5). -/
def TemperGPModel.predictCov {α : Type} (t : TemperGPModel α) (x x' : α) : ℚ :=
  t.temperature * t.gp.cov x x'

/-- Claim C3: for every fitted base GP, calibration set, and query
inputs, the TemperGP wrapper returns the base GP's predictive mean
unchanged and the base GP's predictive covariance multiplied by the
scalar temperature τ, where τ is the value computed once at construction
time from the calibration set. -/
theorem temperGP_mean_unchanged_cov_scaled {α : Type} (gp : GPModel α)
    (x_calibration : List α) (y_calibration : List ℚ) (x x' : α) :
    (TemperGP gp x_calibration y_calibration).predictMean x = gp.mean x ∧
    (TemperGP gp x_calibration y_calibration).predictCov x x'
        = (TemperGP gp x_calibration y_calibration).temperature * gp.cov x x' ∧
    (TemperGP gp x_calibration y_calibration).temperature
        = temperTemperature gp (x_calibration.zip y_calibration) := by
  exact ⟨rfl, rfl, rfl⟩

/-! ## GradientFlowKernel (claim C4) -/

/-- Modelled from the spec: `src.kernels.GradientFlowKernel` wraps a base
covariance kernel together with a fixed non-empty approximation sample
set (spec section 4.1); src/kernels is not among the available sources. -/
structure GradientFlowKernel (α : Type) where
  base_kernel : α → α → ℚ
  approximation_samples : List α

/-- Modelled from the spec: dense kernel-matrix evaluation of a base
kernel on an input pair, as a row-major matrix of kernel values. -/
def denseKernelEvaluation {α : Type} (k : α → α → ℚ) (x1 x2 : List α) :
    List (List ℚ) :=
  x1.map fun a => x2.map fun b => k a b

/-- Modelled from the spec: `GradientFlowKernel.evaluate` produces "a
kernel matrix K(X1,X2) identical in shape/semantics to the wrapped base
kernel" (spec section 4.1), i.e. it delegates dense evaluation to the
base kernel. -/
def GradientFlowKernel.evaluate {α : Type} (k : GradientFlowKernel α)
    (x1 x2 : List α) : List (List ℚ) :=
  denseKernelEvaluation k.base_kernel x1 x2

/-- Modelled from the spec: the cached reduced-rank representation built
from the approximation samples, used only internally by the flow's
velocity computation (spec section 4.1): the cross-covariances against
the sample set and the sample Gram matrix. -/
def GradientFlowKernel.approximationFactors {α : Type}
    (k : GradientFlowKernel α) (x1 : List α) :
    List (List ℚ) × List (List ℚ) :=
  (denseKernelEvaluation k.base_kernel x1 k.approximation_samples,
   denseKernelEvaluation k.base_kernel k.approximation_samples
     k.approximation_samples)

/-- Claim C4: for every input pair, base kernel, and non-empty
approximation sample set, `GradientFlowKernel.evaluate` coincides exactly
(hence within any floating-point tolerance such as 1e-6) with the wrapped
base kernel's dense evaluation on that pair. -/
theorem gradientFlowKernel_evaluate_matches_base {α : Type}
    (k : GradientFlowKernel α) (x1 x2 : List α)
    (_hsamples : k.approximation_samples ≠ []) :
    k.evaluate x1 x2 = denseKernelEvaluation k.base_kernel x1 x2 := by
  rfl

/-- Demonstration kernel wrapper for the C4 witness. -/
def demoGradientFlowKernel : GradientFlowKernel ℚ :=
  { base_kernel := fun a b => a * b + 1
    approximation_samples := [0, 1] }

/-- Claim C4 witness: instantiates the theorem at the demonstration
wrapper and a concrete input pair. -/
theorem gradientFlowKernel_evaluate_matches_base_witness :
    demoGradientFlowKernel.evaluate [2, 3] [5]
        = denseKernelEvaluation demoGradientFlowKernel.base_kernel [2, 3] [5] :=
  gradientFlowKernel_evaluate_matches_base demoGradientFlowKernel [2, 3] [5]
    (by decide)

/-! ## ConditionalVarianceInduceDataSelector (claims C5, C6)

Modelled from the spec: `src.induce_data_selectors` is not among the
available sources.  The candidate pool of N points is indexed by
`Fin nn`; the kernel supplies prior covariances between pool points, and
a returned list of indices designates the selected rows (their targets,
when present, follow the same indices). -/

inductive ConfigurationError where
  | nonPositiveInducePointCount
deriving DecidableEq, Repr

/-- Modelled from the spec: the rank-one downdate of the residual
covariance after conditioning on the chosen point `j` ("updating
variances via Cholesky-based rank-one downdates", spec section 4.2), in
its Gaussian-elimination form, exact over ℚ. -/
def conditionalDowndate {nn : ℕ} (R : Fin nn → Fin nn → ℚ) (j : Fin nn) :
    Fin nn → Fin nn → ℚ :=
  fun a b => R a b - R a j * R b j / R j j

/-- Helper for the greedy argmax: the element of maximal residual
variance among `b :: l`, the earliest maximum winning. -/
def pickMaxFrom {nn : ℕ} (R : Fin nn → Fin nn → ℚ) :
    Fin nn → List (Fin nn) → Fin nn
  | b, [] => b
  | b, i :: rest => pickMaxFrom R (if R b b < R i i then i else b) rest

/-- Modelled from the spec: the candidate of maximal conditional variance
among the remaining pool, the seed entering only through the rotation
that decides which among tied maxima is met first ("deterministic given a
fixed random seed for tie-breaking", spec section 4.2). -/
def pickMax {nn : ℕ} (seed : ℕ) (R : Fin nn → Fin nn → ℚ)
    (remaining : List (Fin nn)) : Option (Fin nn) :=
  match remaining.rotate seed with
  | [] => none
  | i :: rest => some (pickMaxFrom R i rest)

/-- Modelled from the spec: the greedy selection loop — iteratively pick
the remaining point of maximal conditional variance, downdate the
residual covariance, and repeat until the requested count is reached or
the pool is exhausted (spec section 4.2). -/
def greedySelectAux {nn : ℕ} (seed : ℕ) :
    ℕ → (Fin nn → Fin nn → ℚ) → List (Fin nn) → List (Fin nn) →
      List (Fin nn)
  | 0, _, _, sel => sel.reverse
  | fuel + 1, R, remaining, sel =>
    match pickMax seed R remaining with
    | none => sel.reverse
    | some j =>
        greedySelectAux seed fuel (conditionalDowndate R j)
          (remaining.erase j) (j :: sel)

/-- Modelled from the spec: `ConditionalVarianceInduceDataSelector` —
greedy conditional-variance selection of M points from the pool; a
non-positive requested count fails with a configuration error (spec
sections 4.2 and 7a). -/
def conditionalVarianceSelect {nn : ℕ} (seed : ℕ)
    (k : Fin nn → Fin nn → ℚ) (m : ℕ) :
    Except ConfigurationError (List (Fin nn)) :=
  if m = 0 then Except.error ConfigurationError.nonPositiveInducePointCount
  else Except.ok (greedySelectAux seed m k (List.finRange nn) [])

theorem pickMaxFrom_mem {nn : ℕ} (R : Fin nn → Fin nn → ℚ) :
    ∀ (l : List (Fin nn)) (b : Fin nn), pickMaxFrom R b l ∈ b :: l := by
  intro l
  induction l with
  | nil => intro b; simp [pickMaxFrom]
  | cons i rest ih =>
      intro b
      by_cases hc : R b b < R i i
      · have h := ih i
        simp only [pickMaxFrom, if_pos hc]
        exact List.mem_cons_of_mem b h
      · have h := ih b
        simp only [pickMaxFrom, if_neg hc]
        rcases List.mem_cons.mp h with h1 | h1
        · rw [h1]; exact List.mem_cons_self b _
        · exact List.mem_cons_of_mem b (List.mem_cons_of_mem i h1)

theorem pickMax_mem {nn : ℕ} {seed : ℕ} {R : Fin nn → Fin nn → ℚ}
    {remaining : List (Fin nn)} {j : Fin nn}
    (h : pickMax seed R remaining = some j) : j ∈ remaining := by
  unfold pickMax at h
  cases hrot : remaining.rotate seed with
  | nil => rw [hrot] at h; exact absurd h (by simp)
  | cons i rest =>
      rw [hrot] at h
      have hj : j = pickMaxFrom R i rest := (Option.some.inj h).symm
      have hmem : j ∈ i :: rest := hj ▸ pickMaxFrom_mem R rest i
      rw [← hrot] at hmem
      exact List.mem_rotate.mp hmem

theorem pickMax_nil {nn : ℕ} {seed : ℕ} {R : Fin nn → Fin nn → ℚ} :
    pickMax seed R [] = none := by
  simp [pickMax, List.rotate_nil]

theorem pickMax_isSome {nn : ℕ} (seed : ℕ) (R : Fin nn → Fin nn → ℚ)
    {remaining : List (Fin nn)} (h : remaining ≠ []) :
    ∃ j, pickMax seed R remaining = some j := by
  unfold pickMax
  cases hrot : remaining.rotate seed with
  | nil =>
      exfalso
      have hlen := congrArg List.length hrot
      rw [List.length_rotate] at hlen
      exact h (List.length_eq_zero.mp hlen)
  | cons i rest => exact ⟨_, rfl⟩

theorem greedySelectAux_mem_sel {nn : ℕ} (seed : ℕ) :
    ∀ (fuel : ℕ) (R : Fin nn → Fin nn → ℚ) (remaining sel : List (Fin nn))
      (x : Fin nn), x ∈ sel → x ∈ greedySelectAux seed fuel R remaining sel := by
  intro fuel
  induction fuel with
  | zero => intro R remaining sel x hx; simpa [greedySelectAux] using hx
  | succ fuel ih =>
      intro R remaining sel x hx
      cases hpk : pickMax seed R remaining with
      | none => simpa [greedySelectAux, hpk] using hx
      | some j =>
          simp only [greedySelectAux, hpk]
          exact ih _ _ _ x (List.mem_cons_of_mem j hx)

theorem greedySelectAux_length {nn : ℕ} (seed : ℕ) :
    ∀ (fuel : ℕ) (R : Fin nn → Fin nn → ℚ) (remaining sel : List (Fin nn)),
      remaining.Nodup →
      (greedySelectAux seed fuel R remaining sel).length
        = sel.length + min fuel remaining.length := by
  intro fuel
  induction fuel with
  | zero => intro R remaining sel _; simp [greedySelectAux]
  | succ fuel ih =>
      intro R remaining sel hnd
      by_cases hrem : remaining = []
      · subst hrem
        simp [greedySelectAux, pickMax_nil]
      · obtain ⟨j, hj⟩ := pickMax_isSome seed R hrem
        have hjmem := pickMax_mem hj
        have hlen : 0 < remaining.length := List.length_pos.mpr hrem
        simp only [greedySelectAux, hj]
        rw [ih _ _ _ (hnd.erase j), List.length_erase_of_mem hjmem]
        simp only [List.length_cons]
        omega

theorem greedySelectAux_nodup {nn : ℕ} (seed : ℕ) :
    ∀ (fuel : ℕ) (R : Fin nn → Fin nn → ℚ) (remaining sel : List (Fin nn)),
      remaining.Nodup → sel.Nodup → (∀ x ∈ sel, x ∉ remaining) →
      (greedySelectAux seed fuel R remaining sel).Nodup := by
  intro fuel
  induction fuel with
  | zero => intro R remaining sel _ hsel _; simpa [greedySelectAux] using hsel
  | succ fuel ih =>
      intro R remaining sel hrem hsel hdisj
      cases hpk : pickMax seed R remaining with
      | none => simpa [greedySelectAux, hpk] using hsel
      | some j =>
          have hjmem := pickMax_mem hpk
          simp only [greedySelectAux, hpk]
          apply ih
          · exact hrem.erase j
          · exact List.nodup_cons.mpr ⟨fun hc => hdisj j hc hjmem, hsel⟩
          · intro x hx
            rcases List.mem_cons.mp hx with h1 | h1
            · subst h1
              exact fun hc => (hrem.mem_erase_iff.mp hc).1 rfl
            · exact fun hc => hdisj x h1 (List.mem_of_mem_erase hc)

theorem greedySelectAux_complete {nn : ℕ} (seed : ℕ) :
    ∀ (fuel : ℕ) (R : Fin nn → Fin nn → ℚ) (remaining sel : List (Fin nn)),
      remaining.Nodup → remaining.length ≤ fuel →
      ∀ x ∈ remaining, x ∈ greedySelectAux seed fuel R remaining sel := by
  intro fuel
  induction fuel with
  | zero =>
      intro R remaining sel _ hle x hx
      rw [Nat.le_zero, List.length_eq_zero] at hle
      subst hle
      exact absurd hx (List.not_mem_nil x)
  | succ fuel ih =>
      intro R remaining sel hnd hle x hx
      have hrem : remaining ≠ [] := by
        intro h
        subst h
        exact absurd hx (List.not_mem_nil x)
      obtain ⟨j, hj⟩ := pickMax_isSome seed R hrem
      have hjmem := pickMax_mem hj
      simp only [greedySelectAux, hj]
      by_cases hxj : x = j
      · subst hxj
        exact greedySelectAux_mem_sel seed fuel _ _ _ x
          (List.mem_cons_self x sel)
      · apply ih
        · exact hnd.erase j
        · rw [List.length_erase_of_mem hjmem]
          omega
        · exact (List.mem_erase_of_ne hxj).mpr hx

/-- Claim C5 (amended to positive requested sizes): for every kernel,
pool of N points, fixed seed, and requested size M with 1 ≤ M ≤ N, the
selector succeeds with exactly M distinct indices drawn from the pool;
requesting M = N yields the full pool in a deterministic order; and
repeated calls with the same seed produce the identical selection. -/
theorem conditionalVarianceSelect_spec {nn : ℕ} (seed : ℕ)
    (k : Fin nn → Fin nn → ℚ) (m : ℕ) (h1 : 1 ≤ m) (h2 : m ≤ nn) :
    ∃ sel, conditionalVarianceSelect seed k m = Except.ok sel ∧
      sel.length = m ∧ sel.Nodup ∧
      (∀ i ∈ sel, i ∈ List.finRange nn) ∧
      (m = nn → ∀ i : Fin nn, i ∈ sel) ∧
      (∀ seed2 : ℕ, seed2 = seed →
        conditionalVarianceSelect seed2 k m
          = conditionalVarianceSelect seed k m) := by
  have hm0 : m ≠ 0 := by omega
  refine ⟨greedySelectAux seed m k (List.finRange nn) [],
    ?_, ?_, ?_, ?_, ?_, ?_⟩
  · simp [conditionalVarianceSelect, hm0]
  · rw [greedySelectAux_length seed m k (List.finRange nn) []
      (List.nodup_finRange nn)]
    simp only [List.length_nil, List.length_finRange]
    omega
  · exact greedySelectAux_nodup seed m k (List.finRange nn) []
      (List.nodup_finRange nn) List.nodup_nil (by simp)
  · intro i _
    exact List.mem_finRange i
  · intro hmn i
    exact greedySelectAux_complete seed m k (List.finRange nn) []
      (List.nodup_finRange nn)
      (by rw [List.length_finRange]; omega) i (List.mem_finRange i)
  · intro seed2 hs
    rw [hs]

/-- Demonstration pool kernel on two points for the selector witnesses. -/
def demoInduceKernel : Fin 2 → Fin 2 → ℚ :=
  fun i j => if i = j then 2 else 1

/-- Claim C5 witness: instantiates the selector theorem with seed 0, the
two-point demonstration pool, and requested size 2. -/
theorem conditionalVarianceSelect_spec_witness :
    ∃ sel, conditionalVarianceSelect 0 demoInduceKernel 2 = Except.ok sel ∧
      sel.length = 2 ∧ sel.Nodup ∧
      (∀ i ∈ sel, i ∈ List.finRange 2) ∧
      (2 = 2 → ∀ i : Fin 2, i ∈ sel) ∧
      (∀ seed2 : ℕ, seed2 = 0 →
        conditionalVarianceSelect seed2 demoInduceKernel 2
          = conditionalVarianceSelect 0 demoInduceKernel 2) :=
  conditionalVarianceSelect_spec 0 demoInduceKernel 2 (by decide) (by decide)

/-- Claim C5 counterexample: at the concrete requested size M = 0, which
satisfies M ≤ N for the two-point pool, the selector raises the
configuration error instead of returning a selection, so the claim as
stated over all M ≤ N fails. -/
theorem conditionalVarianceSelect_zero_not_ok :
    ¬ ∃ sel : List (Fin 2),
        conditionalVarianceSelect 0 demoInduceKernel 0 = Except.ok sel := by
  rintro ⟨sel, hsel⟩
  simp [conditionalVarianceSelect] at hsel

/-- Claim C6: requesting M = 0 inducing points fails immediately with the
invalid-configuration error rather than returning an empty selection,
while requesting M ≥ N succeeds with the full pool. -/
theorem conditionalVarianceSelect_edge {nn : ℕ} (seed : ℕ)
    (k : Fin nn → Fin nn → ℚ) (m : ℕ) (h1 : 1 ≤ m) (h2 : nn ≤ m) :
    conditionalVarianceSelect seed k 0
        = Except.error ConfigurationError.nonPositiveInducePointCount ∧
    ∃ sel, conditionalVarianceSelect seed k m = Except.ok sel ∧
      sel.length = nn ∧ sel.Nodup ∧ ∀ i : Fin nn, i ∈ sel := by
  have hm0 : m ≠ 0 := by omega
  refine ⟨rfl, greedySelectAux seed m k (List.finRange nn) [],
    ?_, ?_, ?_, ?_⟩
  · simp [conditionalVarianceSelect, hm0]
  · rw [greedySelectAux_length seed m k (List.finRange nn) []
      (List.nodup_finRange nn)]
    simp only [List.length_nil, List.length_finRange]
    omega
  · exact greedySelectAux_nodup seed m k (List.finRange nn) []
      (List.nodup_finRange nn) List.nodup_nil (by simp)
  · intro i
    exact greedySelectAux_complete seed m k (List.finRange nn) []
      (List.nodup_finRange nn)
      (by rw [List.length_finRange]; omega) i (List.mem_finRange i)

/-- Claim C6 witness: instantiates the edge-case theorem with seed 0, the
two-point demonstration pool, and requested size 3 > 2. -/
theorem conditionalVarianceSelect_edge_witness :
    conditionalVarianceSelect 0 demoInduceKernel 0
        = Except.error ConfigurationError.nonPositiveInducePointCount ∧
    ∃ sel, conditionalVarianceSelect 0 demoInduceKernel 3 = Except.ok sel ∧
      sel.length = 2 ∧ sel.Nodup ∧ ∀ i : Fin 2, i ∈ sel :=
  conditionalVarianceSelect_edge 0 demoInduceKernel 3 (by decide) (by decide)

/-! ## PWGF projection step (claim C7)

Modelled from the spec: the projection step of
`ProjectedWassersteinGradientFlow` (spec section 4.3 step 3);
src.gradient_flows is not among the available sources.  Particles are
the columns of the M×K particle matrix, and magnitudes are Euclidean
norms, so this part of the model lives over ℝ. -/

noncomputable section

/-- Squared Euclidean magnitude of a particle. -/
def particleNormSq {d : ℕ} (v : Fin d → ℝ) : ℝ := ∑ i, v i ^ 2

/-- Euclidean magnitude of a particle. -/
def particleNorm {d : ℕ} (v : Fin d → ℝ) : ℝ :=
  Real.sqrt (particleNormSq v)

open Classical in
/-- Modelled from the spec: the projection applied to one particle —
"clip/rescale any particle whose norm exceeds max_particle_magnitude,
preserving direction" (spec section 4.3 step 3). -/
def projectParticle {d : ℕ} (c : ℝ) (v : Fin d → ℝ) : Fin d → ℝ :=
  if c < particleNorm v then fun i => (c / particleNorm v) * v i else v

/-- Modelled from the spec: the projection step applied to the whole
particle matrix, one particle column at a time. -/
def projectParticles {d kk : ℕ} (c : ℝ) (P : Fin d → Fin kk → ℝ) :
    Fin d → Fin kk → ℝ :=
  fun i j => projectParticle c (fun i2 => P i2 j) i

/-- Cosine similarity between two particles. -/
def cosineSimilarity {d : ℕ} (v w : Fin d → ℝ) : ℝ :=
  (∑ i, v i * w i) / (particleNorm v * particleNorm w)

/-- Demonstration particle matrix (one particle, two coordinates) for
the projection witness. -/
def demoParticles : Fin 2 → Fin 1 → ℝ :=
  fun i _ => if i = 0 then 3 else 4

end

theorem particleNormSq_nonneg {d : ℕ} (v : Fin d → ℝ) :
    0 ≤ particleNormSq v :=
  Finset.sum_nonneg fun i _ => sq_nonneg (v i)

theorem particleNormSq_smul {d : ℕ} (t : ℝ) (v : Fin d → ℝ) :
    particleNormSq (fun i => t * v i) = t ^ 2 * particleNormSq v := by
  simp [particleNormSq, mul_pow, Finset.mul_sum]

theorem particleNorm_smul {d : ℕ} (t : ℝ) (ht : 0 ≤ t) (v : Fin d → ℝ) :
    particleNorm (fun i => t * v i) = t * particleNorm v := by
  unfold particleNorm
  rw [particleNormSq_smul, Real.sqrt_mul (sq_nonneg t), Real.sqrt_sq ht]

/-- Claim C7: after the projection step, every particle (column of the
particle matrix) whose norm exceeds `max_particle_magnitude` has its
magnitude clipped to exactly that bound with its direction preserved
(cosine similarity 1 to the pre-clip vector), and every particle whose
norm does not exceed the bound is left unchanged. -/
theorem projectParticles_clips {d kk : ℕ} (c : ℝ) (P : Fin d → Fin kk → ℝ)
    (hc : 0 < c) (j : Fin kk) :
    (c < particleNorm (fun i => P i j) →
      particleNorm (fun i => projectParticles c P i j) = c ∧
      cosineSimilarity (fun i => P i j)
        (fun i => projectParticles c P i j) = 1) ∧
    (particleNorm (fun i => P i j) ≤ c →
      ∀ i, projectParticles c P i j = P i j) := by
  set v : Fin d → ℝ := fun i => P i j with hv
  have hcol : (fun i => projectParticles c P i j) = projectParticle c v := rfl
  constructor
  · intro hlt
    have hnorm_pos : 0 < particleNorm v := lt_trans hc hlt
    have hS_pos : 0 < particleNormSq v := by
      have hsq : 0 < Real.sqrt (particleNormSq v) := hnorm_pos
      exact Real.sqrt_pos.mp hsq
    set t : ℝ := c / particleNorm v with htdef
    have ht_pos : 0 < t := div_pos hc hnorm_pos
    have hproj : projectParticle c v = fun i => t * v i := by
      simp only [projectParticle, if_pos hlt]
    constructor
    · rw [hcol, hproj, particleNorm_smul t ht_pos.le v, htdef,
        div_mul_cancel₀ c (ne_of_gt hnorm_pos)]
    · rw [hcol, hproj]
      have hnum : (∑ i, v i * (t * v i)) = t * particleNormSq v := by
        unfold particleNormSq
        rw [Finset.mul_sum]
        exact Finset.sum_congr rfl fun i _ => by ring
      have hvv : particleNorm v * particleNorm v = particleNormSq v := by
        unfold particleNorm
        exact Real.mul_self_sqrt (particleNormSq_nonneg v)
      have hden : particleNorm v * particleNorm (fun i => t * v i)
          = t * particleNormSq v := by
        rw [particleNorm_smul t ht_pos.le v, ← hvv]
        ring
      unfold cosineSimilarity
      rw [hnum, hden]
      exact div_self (ne_of_gt (mul_pos ht_pos hS_pos))
  · intro hle i
    have hid : projectParticle c v = v := by
      simp only [projectParticle, if_neg (not_lt.mpr hle)]
    calc projectParticles c P i j = projectParticle c v i := rfl
      _ = v i := by rw [hid]
      _ = P i j := rfl

/-- Claim C7 witness: instantiates the projection theorem at the bound 1
and the demonstration particle matrix. -/
theorem projectParticles_clips_witness :
    ((1 : ℝ) < particleNorm (fun i => demoParticles i 0) →
      particleNorm (fun i => projectParticles 1 demoParticles i 0) = 1 ∧
      cosineSimilarity (fun i => demoParticles i 0)
        (fun i => projectParticles 1 demoParticles i 0) = 1) ∧
    (particleNorm (fun i => demoParticles i 0) ≤ 1 →
      ∀ i, projectParticles 1 demoParticles i 0 = demoParticles i 0) :=
  projectParticles_clips 1 demoParticles (by norm_num) 0

end FSGF
